import Mathlib

/-!
Shallow embedding of the layout core of the Ancient-Style-Young-Man
repository (src/src/App.tsx layout-engine section and the scene module):
tokenizer, line packer, layout search, safe-rectangle geometry and the
text-offset post-processor.  Numbers are modelled as rationals, strings as
lists of characters, and the canvas measurement context as an explicit
measurement-provider function.
-/

namespace GufengLayout

/-- Pixel rectangle, `{x, y, width, height}` (types.ts `Rect`). -/
structure Rect where
  x : ℚ
  y : ℚ
  width : ℚ
  height : ℚ
  deriving DecidableEq, Repr

/-- Inline asset metadata (types.ts `InlineAsset`); the `dataUrl` and image
handle are opaque to the layout core and omitted. -/
structure InlineAsset where
  id : List Char
  name : List Char
  naturalWidth : ℚ
  naturalHeight : ℚ
  deriving DecidableEq, Repr

/-- Layout configuration (types.ts `LayoutConfig`); colour strings are kept
as opaque data. -/
structure LayoutConfig where
  width : ℚ
  height : ℚ
  fontSize : ℚ
  minFontSize : ℚ
  fontFamily : List Char
  lineHeight : ℚ
  maxColumns : ℕ
  columnGap : ℚ
  textColor : List Char
  strokeColor : List Char
  strokeWidth : ℚ
  deriving DecidableEq, Repr

/-- `LayoutToken` from layoutEngine: tagged text / asset variant. -/
inductive LayoutToken where
  | text (value : List Char)
  | asset (asset : InlineAsset)
  deriving DecidableEq, Repr

/-- Result of `CanvasRenderingContext2D.measureText`: the width plus the
four optional bounding-box metrics read by the line packer.  A `none`
field models a metric the provider does not supply; `some 0` models a
zero metric (falsy in JavaScript, like a missing one). -/
structure TextMetricsQ where
  width : ℚ
  actualBoundingBoxAscent : Option ℚ
  actualBoundingBoxDescent : Option ℚ
  fontBoundingBoxAscent : Option ℚ
  fontBoundingBoxDescent : Option ℚ
  deriving DecidableEq, Repr

/-- A measurement provider: font size and character to metrics.  This models
the reusable canvas context whose `font` is reassigned before each
`measureText` call, so metrics depend on the current font size. -/
abbrev MeasureProvider := ℚ → Char → TextMetricsQ

/-- JavaScript `a || b` on an optional numeric value: `none` and `0` are
falsy and fall through to the default. -/
def jsOrQ (a : Option ℚ) (b : ℚ) : ℚ :=
  match a with
  | some v => if v = 0 then b else v
  | none => b

/-- Run type tag (`'text' | 'asset'`). -/
inductive RunType where
  | text
  | asset
  deriving DecidableEq, Repr

/-- One placed unit (types.ts `Placement`). -/
structure Placement where
  type : RunType
  value : List Char
  asset : Option InlineAsset
  x : ℚ
  y : ℚ
  width : ℚ
  height : ℚ
  baseline : ℚ
  lineHeight : ℚ
  column : ℕ
  deriving DecidableEq, Repr

/-- One run inside a line buffer (layoutEngine `RunBuffer`). -/
structure RunBuffer where
  type : RunType
  value : List Char
  asset : Option InlineAsset
  width : ℚ
  height : ℚ
  ascent : ℚ
  descent : ℚ
  deriving DecidableEq, Repr

/-- Accumulating line (layoutEngine `LineBuffer`). -/
structure LineBuffer where
  runs : List RunBuffer
  width : ℚ
  ascent : ℚ
  descent : ℚ
  height : ℚ
  deriving DecidableEq, Repr

/-- One attempt result (layoutEngine `LayoutAttempt`). -/
structure LayoutAttempt where
  success : Bool
  placements : List Placement
  overflow : Bool
  warnings : List String
  columnHeights : List ℚ
  deriving DecidableEq, Repr

/-- Result of `findFontSizeForColumns`. -/
structure FontSearchResult where
  success : Bool
  placements : List Placement
  fontSize : ℚ
  warnings : List String
  columnHeights : List ℚ
  deriving DecidableEq, Repr

/-- Final layout result (types.ts `LayoutResult`). -/
structure LayoutResult where
  success : Bool
  placements : List Placement
  fontSize : ℚ
  columns : ℕ
  columnHeights : List ℚ
  warnings : List String
  deriving DecidableEq, Repr

/-! ### Warning message constants (App.tsx / scene.ts literals) -/

def degenerateMsg : String := "安全区域尺寸无效，无法排版"

def narrowColumnMsg : String := "安全区域过窄，建议缩小角色或增加安全边距，可尝试下调“基准字号”。"

def overflowMsg : String := "内容过多，换列后仍然溢出，可尝试减小“基准字号”或精简文案。"

def fallbackMsg : String := "内容过多，最小字号仍无法在安全区域排布，可尝试减少文字、缩小角色或下调“基准字号”。"

def offsetWarningMsg : String := "文案位置已超出安全区，可调整“文案偏移”或裁剪设置。"

/-! ### Tokenizer (layoutEngine `tokenizeText`)

The source scans the input with the global regex
`/\[\[asset:([^\]]+)\]\]/g`: a literal `[[asset:` head, one or more
non-`]` identifier characters, then `]]`.  `String.replace` visits the
non-overlapping, leftmost matches in order. -/

/-- The literal `[[asset:` marker head. -/
def assetMarkerHead : List Char := ['[', '[', 'a', 's', 's', 'e', 't', ':']

/-- Try to match the asset marker regex at the head of `cs`; on success
return the captured identifier and the remaining input after the match.
The capture `[^\]]+` is the maximal nonempty run of non-`]` characters
after the head, which must be followed by `]]`. -/
def matchAssetMarker (cs : List Char) : Option (List Char × List Char) :=
  if assetMarkerHead.isPrefixOf cs then
    let rest := cs.drop assetMarkerHead.length
    let idPart := rest.takeWhile (fun c => c ≠ ']')
    let after := rest.dropWhile (fun c => c ≠ ']')
    if idPart ≠ [] ∧ after.take 2 = [']', ']'] then some (idPart, after.drop 2)
    else none
  else none

/-- JavaScript `Map` built from `assets.map(a => [a.id, a])`: a later entry
with the same id overwrites an earlier one, so lookup returns the last
matching asset. -/
def assetLookup (assets : List InlineAsset) (idPart : List Char) : Option InlineAsset :=
  assets.foldl (fun acc a => if a.id = idPart then some a else acc) none

/-- Scanner loop of `tokenizeText`: walk the input, flushing accumulated
plain text before each marker match; a marker with a registered id becomes
an asset token, otherwise the whole matched string stays literal text.
`fuel` dominates the number of loop steps (each step consumes at least one
character), so with `fuel = input.length` the zero case is unreachable. -/
def tokenizeLoop (assets : List InlineAsset) : ℕ → List Char → List Char → List LayoutToken
  | 0, cs, acc => if acc ++ cs ≠ [] then [LayoutToken.text (acc ++ cs)] else []
  | fuel + 1, cs, acc =>
    match cs with
    | [] => if acc ≠ [] then [LayoutToken.text acc] else []
    | c :: rest =>
      match matchAssetMarker (c :: rest) with
      | some (idPart, remaining) =>
        let flushed := if acc ≠ [] then [LayoutToken.text acc] else []
        let tok :=
          match assetLookup assets idPart with
          | some a => LayoutToken.asset a
          | none => LayoutToken.text (assetMarkerHead ++ idPart ++ [']', ']'])
        flushed ++ tok :: tokenizeLoop assets fuel remaining []
      | none => tokenizeLoop assets fuel rest (acc ++ [c])

/-- layoutEngine `tokenizeText`: tokenize the input, falling back to a
single empty text token when nothing was produced. -/
def tokenizeText (input : List Char) (assets : List InlineAsset) : List LayoutToken :=
  let results := tokenizeLoop assets input.length input []
  if results = [] then [LayoutToken.text []] else results

/-- Render one token back to source text: a text token is its content, an
asset token is its `[[asset:<id>]]` marker. -/
def renderToken : LayoutToken → List Char
  | LayoutToken.text v => v
  | LayoutToken.asset a => assetMarkerHead ++ a.id ++ [']', ']']

/-- Concatenate the rendering of every token. -/
def renderTokens (ts : List LayoutToken) : List Char :=
  (ts.map renderToken).flatten

/-- Whether the asset marker regex matches anywhere in `cs`. -/
def containsAssetMarker : List Char → Bool
  | [] => false
  | c :: rest => (matchAssetMarker (c :: rest)).isSome || containsAssetMarker rest

/-! ### Line packer (layoutEngine `createLineBuffer`, `pushTextSegment`,
`pushAssetToken`) -/

/-- layoutEngine `createLineBuffer`. -/
def createLineBuffer (fontSize lineHeightQ : ℚ) : LineBuffer :=
  { runs := []
    width := 0
    ascent := fontSize * (8 / 10)
    descent := fontSize * (2 / 10)
    height := fontSize * lineHeightQ }

/-- Effective ascent of a measured character:
`metrics.actualBoundingBoxAscent || metrics.fontBoundingBoxAscent || fontSize * 0.82`. -/
def runAscent (m : TextMetricsQ) (fontSize : ℚ) : ℚ :=
  jsOrQ m.actualBoundingBoxAscent (jsOrQ m.fontBoundingBoxAscent (fontSize * (82 / 100)))

/-- Effective descent of a measured character:
`metrics.actualBoundingBoxDescent || metrics.fontBoundingBoxDescent || fontSize * 0.18`. -/
def runDescent (m : TextMetricsQ) (fontSize : ℚ) : ℚ :=
  jsOrQ m.actualBoundingBoxDescent (jsOrQ m.fontBoundingBoxDescent (fontSize * (18 / 100)))

/-- Append one measured character run to the current line and update the
line's accumulated width, ascent, descent and height (the body of the
`for (const char of ...)` loop after the wrap decision).  The run records
the line height as it was before this update, as in the source. -/
def pushCharRun (cur : LineBuffer) (ch : Char) (width ascent descent : ℚ) : LineBuffer :=
  let runs := cur.runs ++
    [{ type := RunType.text
       value := [ch]
       asset := none
       width := width
       height := cur.height
       ascent := ascent
       descent := descent }]
  let ascent' := max cur.ascent ascent
  let descent' := max cur.descent descent
  { runs := runs
    width := cur.width + width
    ascent := ascent'
    descent := descent'
    height := max cur.height (ascent' + descent') }

/-- layoutEngine `pushTextSegment`: measure each character of the segment,
wrap to a fresh line when it would overflow a nonempty line, then append
it.  The state is the closed-lines list plus the current line. -/
def pushTextSegment (segment : List Char) (line : LineBuffer) (columnWidth : ℚ)
    (measure : Char → TextMetricsQ) (fontSize lineHeightQ : ℚ)
    (lines : List LineBuffer) : List LineBuffer × LineBuffer :=
  segment.foldl
    (fun st ch =>
      let m := measure ch
      let width := m.width
      let ascent := runAscent m fontSize
      let descent := runDescent m fontSize
      let st2 :=
        if st.2.width + width > columnWidth ∧ st.2.runs ≠ [] then
          (st.1 ++ [st.2], createLineBuffer fontSize lineHeightQ)
        else st
      (st2.1, pushCharRun st2.2 ch width ascent descent))
    (lines, line)

/-- Append one sized asset run to the current line and update the line's
metrics (tail of `pushAssetToken` after the wrap decision): the asset's
own height acts as its ascent with zero descent. -/
def pushAssetRun (cur : LineBuffer) (asset : InlineAsset) (width height : ℚ) : LineBuffer :=
  let runs := cur.runs ++
    [{ type := RunType.asset
       value := asset.id
       asset := some asset
       width := width
       height := height
       ascent := height
       descent := 0 }]
  let cur := { cur with
    runs := runs
    width := cur.width + width
    height := max cur.height height }
  let cur := { cur with
    ascent := max cur.ascent height
    descent := max cur.descent 0 }
  { cur with height := max cur.height (cur.ascent + cur.descent) }

/-- layoutEngine `pushAssetToken`: size the asset box to height
`fontSize × 1.05` at its natural aspect ratio, shrink uniformly if wider
than the column, wrap like a character, then append.  The JavaScript
aspect ratio `naturalWidth / naturalHeight || 1` falls back to `1` when
the quotient is `0` (or `NaN`); the infinite-quotient case
(`naturalHeight = 0`, `naturalWidth ≠ 0`) is outside this rational
model. -/
def pushAssetToken (asset : InlineAsset) (line : LineBuffer)
    (columnWidth fontSize lineHeightQ : ℚ)
    (lines : List LineBuffer) : List LineBuffer × LineBuffer :=
  let targetHeight := fontSize * (105 / 100)
  let ratio :=
    if asset.naturalWidth / asset.naturalHeight = 0 then 1
    else asset.naturalWidth / asset.naturalHeight
  let width0 := targetHeight * ratio
  let wh :=
    if width0 > columnWidth then (columnWidth, targetHeight * (columnWidth / width0))
    else (width0, targetHeight)
  let st :=
    if line.width + wh.1 > columnWidth ∧ line.runs ≠ [] then
      (lines ++ [line], createLineBuffer fontSize lineHeightQ)
    else (lines, line)
  (st.1, pushAssetRun st.2 asset wh.1 wh.2)

/-- The per-text-token segment walk of `layoutWithConfig`: segments come
from splitting the token's text on `'\n'`; every segment boundary closes
the current line unconditionally (`segmentIndex < segments.length - 1`),
and empty segments push no characters. -/
def processSegments (columnWidth : ℚ) (measure : Char → TextMetricsQ)
    (fontSize lineHeightQ : ℚ) :
    List (List Char) → List LineBuffer × LineBuffer → List LineBuffer × LineBuffer
  | [], st => st
  | [s], st =>
    if s ≠ [] then pushTextSegment s st.2 columnWidth measure fontSize lineHeightQ st.1
    else st
  | s :: s2 :: rest, st =>
    let st1 :=
      if s ≠ [] then pushTextSegment s st.2 columnWidth measure fontSize lineHeightQ st.1
      else st
    processSegments columnWidth measure fontSize lineHeightQ (s2 :: rest)
      (st1.1 ++ [st1.2], createLineBuffer fontSize lineHeightQ)

/-- The line-building phase of `layoutWithConfig`: fold every token into the
lines/current-line state, then close the final line if it has runs (or if
no line was produced at all). -/
def buildLines (tokens : List LayoutToken) (columnWidth : ℚ)
    (measure : Char → TextMetricsQ) (fontSize lineHeightQ : ℚ) : List LineBuffer :=
  let st := tokens.foldl
    (fun st token =>
      match token with
      | LayoutToken.text value =>
        processSegments columnWidth measure fontSize lineHeightQ (value.splitOn '\n') st
      | LayoutToken.asset a =>
        pushAssetToken a st.2 columnWidth fontSize lineHeightQ st.1)
    ([], createLineBuffer fontSize lineHeightQ)
  if st.2.runs ≠ [] ∨ st.1 = [] then st.1 ++ [st.2] else st.1

/-- Place the runs of one line at the current column/cursor position,
returning the new placements and the advanced cursor. -/
def placeLine (safeRect : Rect) (columnWidth columnGap : ℚ) (line : LineBuffer)
    (columnIndex : ℕ) (cursorY : ℚ) : List Placement × ℚ :=
  let left := safeRect.x + (columnIndex : ℚ) * (columnWidth + columnGap)
  let baseline := cursorY + line.ascent + max 0 ((line.height - (line.ascent + line.descent)) / 2)
  let res := line.runs.foldl
    (fun (acc : List Placement × ℚ) run =>
      let runHeight := match run.type with
        | RunType.asset => run.height
        | RunType.text => line.height
      (acc.1 ++
        [{ type := run.type
           value := run.value
           asset := run.asset
           x := left + acc.2
           y := safeRect.y + cursorY
           width := run.width
           height := runHeight
           baseline := safeRect.y + baseline
           lineHeight := line.height
           column := columnIndex }],
       acc.2 + run.width))
    ([], 0)
  (res.1, cursorY + line.height)

/-- The column-packing loop of `layoutWithConfig`: each line that would push
the cumulative column height past `safeRect.height + 0.5` closes the
current column (recording its height) and moves to the next one, failing
when no column remains; the line is then placed without a re-check. -/
def packLines (safeRect : Rect) (columns : ℕ) (columnWidth columnGap : ℚ) :
    List LineBuffer → List Placement → List ℚ → ℕ → ℚ → LayoutAttempt
  | [], placements, columnHeights, columnIndex, cursorY =>
    { success := true, placements := placements, overflow := false, warnings := [],
      columnHeights := columnHeights.set columnIndex cursorY }
  | line :: rest, placements, columnHeights, columnIndex, cursorY =>
    if cursorY + line.height > safeRect.height + 1 / 2 then
      let columnHeights' := columnHeights.set columnIndex cursorY
      if columnIndex + 1 ≥ columns then
        { success := false, placements := [], overflow := true,
          warnings := [overflowMsg], columnHeights := columnHeights' }
      else
        let placed := placeLine safeRect columnWidth columnGap line (columnIndex + 1) 0
        packLines safeRect columns columnWidth columnGap rest
          (placements ++ placed.1) columnHeights' (columnIndex + 1) placed.2
    else
      let placed := placeLine safeRect columnWidth columnGap line columnIndex cursorY
      packLines safeRect columns columnWidth columnGap rest
        (placements ++ placed.1) columnHeights columnIndex placed.2

/-- Column width for a column count:
`(safeRect.width - columnGap * (columns - 1)) / columns`. -/
def columnWidthFor (safeRect : Rect) (config : LayoutConfig) (columns : ℕ) : ℚ :=
  (safeRect.width - config.columnGap * ((columns - 1 : ℕ) : ℚ)) / (columns : ℚ)

/-- layoutEngine `layoutWithConfig`: reject a column width of at most 20px
outright, otherwise build the line buffers and pack them into columns. -/
def layoutWithConfig (tokens : List LayoutToken) (safeRect : Rect) (fontSize : ℚ)
    (columns : ℕ) (config : LayoutConfig) (measure : Char → TextMetricsQ) : LayoutAttempt :=
  let columnWidth := columnWidthFor safeRect config columns
  if columnWidth ≤ 20 then
    { success := false, placements := [], overflow := true,
      warnings := [narrowColumnMsg], columnHeights := List.replicate columns 0 }
  else
    let lines := buildLines tokens columnWidth measure fontSize config.lineHeight
    packLines safeRect columns columnWidth config.columnGap lines []
      (List.replicate columns 0) 0 0

/-! ### Layout search (layoutEngine `findFontSizeForColumns`, `autoLayout`) -/

/-- The font sizes visited by
`for (let fontSize = config.fontSize; fontSize >= config.minFontSize; fontSize -= 2)`:
`start, start - 2, …`, all at least `minF`. -/
def fontSizeCandidates (start minF : ℚ) : List ℚ :=
  if start < minF then []
  else (List.range ((⌊(start - minF) / 2⌋).toNat + 1)).map (fun (k : ℕ) => start - 2 * (k : ℚ))

/-- The loop of `findFontSizeForColumns`, with the warning accumulator made
explicit: every attempt's warnings are appended, and the first successful
attempt is returned with its font size. -/
def fontSearchGo (tokens : List LayoutToken) (safeRect : Rect) (config : LayoutConfig)
    (columns : ℕ) (measure : MeasureProvider) :
    List ℚ → List String → FontSearchResult
  | [], warnings =>
    { success := false, placements := [], fontSize := config.minFontSize,
      warnings := warnings, columnHeights := [] }
  | fs :: rest, warnings =>
    let attempt := layoutWithConfig tokens safeRect fs columns config (measure fs)
    let warnings' := warnings ++ attempt.warnings
    if attempt.success then
      { success := true, placements := attempt.placements, fontSize := fs,
        warnings := warnings', columnHeights := attempt.columnHeights }
    else fontSearchGo tokens safeRect config columns measure rest warnings'

/-- layoutEngine `findFontSizeForColumns`. -/
def findFontSizeForColumns (tokens : List LayoutToken) (safeRect : Rect)
    (config : LayoutConfig) (columns : ℕ) (measure : MeasureProvider) : FontSearchResult :=
  fontSearchGo tokens safeRect config columns measure
    (fontSizeCandidates config.fontSize config.minFontSize) []

/-- The column counts visited by `autoLayout`:
`1..max(1, config.maxColumns)` when multi-column is enabled, else `[1]`. -/
def columnCandidatesFor (config : LayoutConfig) (autoColumns : Bool) : List ℕ :=
  if autoColumns then (List.range (max 1 config.maxColumns)).map (· + 1) else [1]

/-- The column loop of `autoLayout` with its warning accumulator: the first
column count whose font-size search succeeds wins; on exhaustion the
accumulated warnings are returned, or the generic fallback message if none
were recorded. -/
def columnSearchGo (tokens : List LayoutToken) (config : LayoutConfig) (safeRect : Rect)
    (measure : MeasureProvider) : List ℕ → List String → LayoutResult
  | [], warnings =>
    { success := false, placements := [], fontSize := config.minFontSize, columns := 1,
      columnHeights := [],
      warnings := if warnings = [] then [fallbackMsg] else warnings }
  | cols :: rest, warnings =>
    let attempt := findFontSizeForColumns tokens safeRect config cols measure
    if attempt.success then
      { success := true, placements := attempt.placements, fontSize := attempt.fontSize,
        columns := cols, columnHeights := attempt.columnHeights,
        warnings := warnings ++ attempt.warnings }
    else columnSearchGo tokens config safeRect measure rest (warnings ++ attempt.warnings)

/-- layoutEngine `autoLayout`: short-circuit on a degenerate safe rectangle,
then search column counts in ascending order. -/
def autoLayout (tokens : List LayoutToken) (config : LayoutConfig) (safeRect : Rect)
    (autoColumns : Bool) (measure : MeasureProvider) : LayoutResult :=
  if safeRect.width ≤ 0 ∨ safeRect.height ≤ 0 then
    { success := false, placements := [], fontSize := config.minFontSize, columns := 1,
      columnHeights := [], warnings := [degenerateMsg] }
  else
    columnSearchGo tokens config safeRect measure
      (columnCandidatesFor config autoColumns) []

/-! ### Geometry engine (scene `computeSafeRect`) -/

/-- Rectangle area, the comparison key of the candidate sort. -/
def rectArea (r : Rect) : ℚ := r.width * r.height

/-- The outer rectangle: the canvas inset by `outerPadding` on all sides,
each dimension at least 10px. -/
def outerRectFor (canvasWidth canvasHeight outerPadding : ℚ) : Rect :=
  { x := outerPadding
    y := outerPadding
    width := max (canvasWidth - outerPadding * 2) 10
    height := max (canvasHeight - outerPadding * 2) 10 }

/-- The left/top/right candidate rectangles inset from the character
rectangle by `safePadding`, keeping only those with width and height
above 20px. -/
def safeCandidates (canvasWidth canvasHeight : ℚ) (characterRect : Rect)
    (outerPadding safePadding : ℚ) : List Rect :=
  let outer := outerRectFor canvasWidth canvasHeight outerPadding
  let leftRect : Rect :=
    { x := outer.x
      y := outer.y
      width := max (characterRect.x - safePadding - outer.x) 0
      height := outer.height }
  let topRect : Rect :=
    { x := outer.x
      y := outer.y
      width := outer.width
      height := max (characterRect.y - safePadding - outer.y) 0 }
  let rightX := characterRect.x + characterRect.width + safePadding
  let rightRect : Rect :=
    { x := rightX
      y := outer.y
      width := max (outer.x + outer.width - rightX) 0
      height := outer.height }
  [leftRect, topRect, rightRect].filter (fun r => 20 < r.width ∧ 20 < r.height)

/-- First maximum-area rectangle of `best :: rest`: a later candidate
replaces the running best only when its area is strictly greater.  This is
the head of the source's stable sort by descending `width * height`. -/
def selectLargest (best : Rect) (rest : List Rect) : Rect :=
  rest.foldl (fun acc r => if rectArea acc < rectArea r then r else acc) best

/-- scene `computeSafeRect`: without a character rectangle return the outer
rectangle; otherwise pick the largest-area surviving candidate, falling
back to the outer rectangle when none survives. -/
def computeSafeRect (canvasWidth canvasHeight : ℚ) (characterRect : Option Rect)
    (outerPadding safePadding : ℚ) : Rect :=
  let outer := outerRectFor canvasWidth canvasHeight outerPadding
  match characterRect with
  | none => outer
  | some cr =>
    match safeCandidates canvasWidth canvasHeight cr outerPadding safePadding with
    | [] => outer
    | best :: rest => selectLargest best rest

/-! ### Post-processor (scene `applyTextOffset`) -/

/-- Bounding box `(minX, maxX, minY, maxY)` of a placement list, or `none`
when the list is empty (the source's `±Infinity` seeds make the
out-of-bounds test false for an empty list). -/
def placementBounds (ps : List Placement) : Option (ℚ × ℚ × ℚ × ℚ) :=
  ps.foldl
    (fun acc p =>
      match acc with
      | none => some (p.x, p.x + p.width, p.y, p.y + p.height)
      | some (mnX, mxX, mnY, mxY) =>
        some (min mnX p.x, max mxX (p.x + p.width), min mnY p.y, max mxY (p.y + p.height)))
    none

/-- Shift one placement by the user offset (x, y and baseline only). -/
def shiftPlacement (p : Placement) (offsetX offsetY : ℚ) : Placement :=
  { p with
    x := p.x + offsetX
    y := p.y + offsetY
    baseline := p.baseline + offsetY }

/-- Whether the bounding box of the shifted placements leaves the safe
rectangle on any edge. -/
def offsetViolation (placements : List Placement) (offsetX offsetY : ℚ)
    (safeRect : Rect) : Bool :=
  match placementBounds (placements.map (shiftPlacement · offsetX offsetY)) with
  | none => false
  | some (mnX, mxX, mnY, mxY) =>
    if mnX < safeRect.x ∨ mxX > safeRect.x + safeRect.width ∨
        mnY < safeRect.y ∨ mxY > safeRect.y + safeRect.height then true
    else false

/-- scene `applyTextOffset`: skip failed layouts and zero offsets; otherwise
shift every placement, and append the boundary-violation warning exactly
once when the shifted bounding box leaves the safe rectangle and the
message is not already present. -/
def applyTextOffset (layout : LayoutResult) (offsetX offsetY : ℚ)
    (safeRect : Rect) : LayoutResult :=
  if layout.success = false then layout
  else if offsetX = 0 ∧ offsetY = 0 then layout
  else
    let placements := layout.placements.map (shiftPlacement · offsetX offsetY)
    let warnings :=
      if offsetViolation layout.placements offsetX offsetY safeRect = true ∧
          offsetWarningMsg ∉ layout.warnings then
        layout.warnings ++ [offsetWarningMsg]
      else layout.warnings
    { layout with
      placements := placements
      warnings := warnings }

/-! ### Concrete fixtures used by witnesses and counterexamples -/

/-- A provider whose characters are 10px wide and supply no bounding-box
metrics (all four optional fields absent). -/
def sampleMetrics : TextMetricsQ :=
  { width := 10
    actualBoundingBoxAscent := none
    actualBoundingBoxDescent := none
    fontBoundingBoxAscent := none
    fontBoundingBoxDescent := none }

/-- Constant measurement provider built from `sampleMetrics`. -/
def sampleMeasure : MeasureProvider := fun _ _ => sampleMetrics

/-- A small configuration: font sizes 40 down to 32, two columns allowed. -/
def sampleConfig : LayoutConfig :=
  { width := 1080
    height := 1080
    fontSize := 40
    minFontSize := 32
    fontFamily := []
    lineHeight := 1
    maxColumns := 2
    columnGap := 10
    textColor := []
    strokeColor := []
    strokeWidth := 3 }

/-- Configuration with a tall line (`lineHeight` ratio 2 at font size 32). -/
def tallLineConfig : LayoutConfig :=
  { sampleConfig with
    fontSize := 32
    minFontSize := 32
    lineHeight := 2 }

/-- Configuration whose font-size loop runs three times (36, 34, 32). -/
def threeStepConfig : LayoutConfig :=
  { sampleConfig with
    fontSize := 36
    minFontSize := 32 }

/-- A single-character token list. -/
def singleCharTokens : List LayoutToken := [LayoutToken.text ['a']]

/-- A two-character token list. -/
def twoCharTokens : List LayoutToken := [LayoutToken.text ['a', 'b']]

/-- A roomy safe rectangle. -/
def roomySafeRect : Rect := { x := 0, y := 0, width := 200, height := 100 }

/-- A safe rectangle shorter than one line at the tall configuration. -/
def shortSafeRect : Rect := { x := 0, y := 0, width := 100, height := 10 }

/-- A safe rectangle narrower than the 20px column minimum. -/
def narrowSafeRect : Rect := { x := 0, y := 0, width := 15, height := 100 }

/-- A one-placement successful layout used by the post-processor witness. -/
def samplePlacement : Placement :=
  { type := RunType.text
    value := ['a']
    asset := none
    x := 10
    y := 10
    width := 30
    height := 40
    baseline := 42
    lineHeight := 40
    column := 0 }

/-- A successful layout holding `samplePlacement` and no warnings. -/
def sampleLayout : LayoutResult :=
  { success := true
    placements := [samplePlacement]
    fontSize := 40
    columns := 1
    columnHeights := [40]
    warnings := [] }

/-- A character cutout rectangle used by the geometry witness. -/
def sampleCharacterRect : Rect := { x := 600, y := 520, width := 350, height := 400 }

/-- A degenerate (zero-width) safe rectangle. -/
def degenRect : Rect := { x := 0, y := 0, width := 0, height := 100 }

/-! ## Theorems -/

/-! ### Tokenizer correctness (claim C3) -/

/-- A successful marker match decomposes the input as the literal marker
followed by the rest, with a nonempty identifier. -/
theorem matchAssetMarker_eq {cs idPart rem : List Char}
    (h : matchAssetMarker cs = some (idPart, rem)) :
    cs = assetMarkerHead ++ (idPart ++ (']' :: ']' :: rem)) ∧ idPart ≠ [] := by
  unfold matchAssetMarker at h
  split at h
  case isTrue hp =>
    simp only [] at h
    split at h
    case isTrue hc =>
      simp only [Option.some.injEq, Prod.mk.injEq] at h
      obtain ⟨h1, h2⟩ := h
      obtain ⟨t, ht⟩ := List.isPrefixOf_iff_prefix.mp hp
      have hrest : List.drop assetMarkerHead.length cs = t := by
        rw [← ht, List.drop_left]
      rw [hrest] at h1 h2 hc
      constructor
      · rw [← ht]
        congr 1
        rw [← h1]
        conv_lhs => rw [← List.takeWhile_append_dropWhile (fun c => decide (c ≠ ']')) t]
        congr 1
        have hafter := List.take_append_drop 2 (List.dropWhile (fun c => decide (c ≠ ']')) t)
        rw [← h2, ← hafter, hc.2]
        rfl
      · rw [← h1]; exact hc.1
    case isFalse hc => exact absurd h (by simp)
  case isFalse hp => exact absurd h (by simp)

/-- An asset found by id lookup carries exactly the looked-up id. -/
theorem assetLookup_id {assets : List InlineAsset} {idPart : List Char} {a : InlineAsset} :
    assetLookup assets idPart = some a → a.id = idPart := by
  suffices h : ∀ (l : List InlineAsset) (acc : Option InlineAsset),
      (∀ b, acc = some b → b.id = idPart) →
      ∀ b, l.foldl (fun acc a => if a.id = idPart then some a else acc) acc = some b →
        b.id = idPart by
    intro hl
    exact h assets none (by intro b hb; cases hb) a hl
  intro l
  induction l with
  | nil => intro acc hacc b hb; exact hacc b hb
  | cons x xs ih =>
    intro acc hacc b hb
    refine ih _ ?_ b hb
    intro c hc
    simp only [] at hc
    by_cases hx : x.id = idPart
    · rw [if_pos hx] at hc
      cases hc
      exact hx
    · rw [if_neg hx] at hc
      exact hacc c hc

/-- Rendering distributes over token-list concatenation. -/
theorem renderTokens_append (a b : List LayoutToken) :
    renderTokens (a ++ b) = renderTokens a ++ renderTokens b := by
  simp [renderTokens]

/-- Rendering a cons splits into the head token and the tail. -/
theorem renderTokens_cons (t : LayoutToken) (l : List LayoutToken) :
    renderTokens (t :: l) = renderToken t ++ renderTokens l := by
  simp [renderTokens]

/-- The scanner loop is lossless: rendering its tokens reproduces the
pending accumulator followed by the unread input, for every fuel. -/
theorem renderTokens_tokenizeLoop (assets : List InlineAsset) :
    ∀ (fuel : ℕ) (cs acc : List Char),
      renderTokens (tokenizeLoop assets fuel cs acc) = acc ++ cs := by
  intro fuel
  induction fuel with
  | zero =>
    intro cs acc
    unfold tokenizeLoop
    by_cases h : acc ++ cs = []
    · simp [h, renderTokens]
    · simp [h, renderTokens, renderToken]
  | succ fuel ih =>
    intro cs acc
    unfold tokenizeLoop
    cases cs with
    | nil =>
      by_cases h : acc = []
      · simp [h, renderTokens]
      · simp [h, renderTokens, renderToken]
    | cons c rest =>
      cases hm : matchAssetMarker (c :: rest) with
      | some pr =>
        obtain ⟨idPart, remaining⟩ := pr
        obtain ⟨hcs, hne⟩ := matchAssetMarker_eq hm
        simp only [hm]
        rw [renderTokens_append]
        have hrest := ih remaining []
        rw [List.nil_append] at hrest
        have htok : renderToken
            (match assetLookup assets idPart with
              | some a => LayoutToken.asset a
              | none => LayoutToken.text (assetMarkerHead ++ idPart ++ [']', ']'])) =
            assetMarkerHead ++ idPart ++ [']', ']'] := by
          cases hl : assetLookup assets idPart with
          | some a => simp [renderToken, assetLookup_id hl]
          | none => simp [renderToken]
        simp only [renderTokens_cons, htok, hrest]
        by_cases hacc : acc = []
        · simp [hacc, renderTokens, hcs, List.append_assoc]
        · simp [hacc, renderTokens, renderToken, hcs, List.append_assoc]
      | none =>
        simp only [hm]
        rw [ih rest (acc ++ [c])]
        simp

/-- When the input contains no marker the loop flushes it as one text
token (or nothing when there is nothing to flush). -/
theorem tokenizeLoop_of_no_marker (assets : List InlineAsset) :
    ∀ (fuel : ℕ) (cs acc : List Char), containsAssetMarker cs = false →
      tokenizeLoop assets fuel cs acc =
        if acc ++ cs ≠ [] then [LayoutToken.text (acc ++ cs)] else [] := by
  intro fuel
  induction fuel with
  | zero => intro cs acc _; rfl
  | succ fuel ih =>
    intro cs acc hnm
    unfold tokenizeLoop
    cases cs with
    | nil => simp
    | cons c rest =>
      unfold containsAssetMarker at hnm
      rw [Bool.or_eq_false_iff] at hnm
      obtain ⟨hm, hrest⟩ := hnm
      have hm2 : matchAssetMarker (c :: rest) = none := by
        cases hmm : matchAssetMarker (c :: rest)
        · rfl
        · rw [hmm] at hm; simp at hm
      simp only [hm2]
      rw [ih rest (acc ++ [c]) hrest]
      simp

/-- A marker-free input (also the empty one) tokenizes to a single text
token holding the whole input. -/
theorem tokenizeText_of_no_marker (input : List Char) (assets : List InlineAsset)
    (h : containsAssetMarker input = false) :
    tokenizeText input assets = [LayoutToken.text input] := by
  unfold tokenizeText
  rw [tokenizeLoop_of_no_marker assets input.length input [] h]
  by_cases hi : input = []
  · simp [hi]
  · simp [hi]

/-- Rendering the tokens of any input reconstructs that input exactly. -/
theorem renderTokens_tokenizeText (input : List Char) (assets : List InlineAsset) :
    renderTokens (tokenizeText input assets) = input := by
  unfold tokenizeText
  have hl := renderTokens_tokenizeLoop assets input.length input []
  rw [List.nil_append] at hl
  by_cases hr : tokenizeLoop assets input.length input [] = []
  · rw [hr] at hl ⊢
    simp only [if_pos rfl]
    rw [← hl]
    simp [renderTokens, renderToken]
  · simp only [if_neg hr]
    exact hl

/-- C3: for every input string and asset list, concatenating the text
tokens with each asset token rendered back as its `[[asset:<id>]]` marker
reconstructs the input exactly; a marker-free or empty input yields one
text token; and a marker with an unregistered id survives as literal text,
as on `"abc[[asset:missing]]def"` with no assets. -/
theorem tokenize_round_trip :
    (∀ (input : List Char) (assets : List InlineAsset),
      renderTokens (tokenizeText input assets) = input ∧
      (containsAssetMarker input = false →
        tokenizeText input assets = [LayoutToken.text input])) ∧
    tokenizeText ("abc[[asset:missing]]def".toList) [] =
      [LayoutToken.text "abc".toList,
       LayoutToken.text "[[asset:missing]]".toList,
       LayoutToken.text "def".toList] := by
  refine ⟨fun input assets => ⟨renderTokens_tokenizeText input assets,
    tokenizeText_of_no_marker input assets⟩, ?_⟩
  decide

/-- Witness for C3 at the concrete marker-free input `"abc"`. -/
theorem tokenize_round_trip_witness :
    containsAssetMarker ("abc".toList) = false ∧
    renderTokens (tokenizeText "abc".toList []) = "abc".toList ∧
    tokenizeText "abc".toList [] = [LayoutToken.text "abc".toList] :=
  ⟨by decide, (tokenize_round_trip.1 "abc".toList []).1,
    (tokenize_round_trip.1 "abc".toList []).2 (by decide)⟩

/-! ### Degenerate safe rectangle and failure shape (claims C9, C10) -/

theorem autoLayout_degenerate (tokens : List LayoutToken) (config : LayoutConfig)
    (safeRect : Rect) (autoColumns : Bool) (measure : MeasureProvider)
    (h : safeRect.width ≤ 0 ∨ safeRect.height ≤ 0) :
    autoLayout tokens config safeRect autoColumns measure =
      { success := false
        placements := []
        fontSize := config.minFontSize
        columns := 1
        columnHeights := []
        warnings := [degenerateMsg] } ∧
    ∀ measure2 : MeasureProvider,
      autoLayout tokens config safeRect autoColumns measure2 =
        autoLayout tokens config safeRect autoColumns measure := by
  constructor
  · unfold autoLayout
    rw [if_pos h]
  · intro m2
    unfold autoLayout
    rw [if_pos h, if_pos h]

theorem autoLayout_degenerate_witness :
    (degenRect.width ≤ 0 ∨ degenRect.height ≤ 0) ∧
    autoLayout singleCharTokens sampleConfig degenRect true sampleMeasure =
      { success := false
        placements := []
        fontSize := sampleConfig.minFontSize
        columns := 1
        columnHeights := []
        warnings := [degenerateMsg] } :=
  ⟨by with_unfolding_all decide,
    (autoLayout_degenerate singleCharTokens sampleConfig degenRect true sampleMeasure
      (by with_unfolding_all decide)).1⟩

theorem columnSearchGo_failure_shape (tokens : List LayoutToken) (config : LayoutConfig)
    (safeRect : Rect) (measure : MeasureProvider) :
    ∀ (cands : List ℕ) (warnings : List String),
      (columnSearchGo tokens config safeRect measure cands warnings).success = false →
      (columnSearchGo tokens config safeRect measure cands warnings).placements = [] ∧
      (columnSearchGo tokens config safeRect measure cands warnings).columnHeights = [] ∧
      (columnSearchGo tokens config safeRect measure cands warnings).fontSize = config.minFontSize ∧
      (columnSearchGo tokens config safeRect measure cands warnings).columns = 1 := by
  intro cands
  induction cands with
  | nil => intro w _; exact ⟨rfl, rfl, rfl, rfl⟩
  | cons cols rest ih =>
    intro w h
    unfold columnSearchGo at h ⊢
    simp only [] at h ⊢
    by_cases hs : (findFontSizeForColumns tokens safeRect config cols measure).success = true
    · rw [if_pos hs] at h
      simp at h
    · rw [if_neg hs] at h ⊢
      exact ih _ h

theorem autoLayout_failure_shape (tokens : List LayoutToken) (config : LayoutConfig)
    (safeRect : Rect) (autoColumns : Bool) (measure : MeasureProvider)
    (h : (autoLayout tokens config safeRect autoColumns measure).success = false) :
    (autoLayout tokens config safeRect autoColumns measure).placements = [] ∧
    (autoLayout tokens config safeRect autoColumns measure).columnHeights = [] ∧
    (autoLayout tokens config safeRect autoColumns measure).fontSize = config.minFontSize ∧
    (autoLayout tokens config safeRect autoColumns measure).columns = 1 := by
  unfold autoLayout at h ⊢
  by_cases hd : safeRect.width ≤ 0 ∨ safeRect.height ≤ 0
  · rw [if_pos hd]
    exact ⟨rfl, rfl, rfl, rfl⟩
  · rw [if_neg hd] at h ⊢
    exact columnSearchGo_failure_shape tokens config safeRect measure _ _ h

theorem autoLayout_failure_shape_witness :
    (autoLayout singleCharTokens threeStepConfig narrowSafeRect false sampleMeasure).success = false ∧
    (autoLayout singleCharTokens threeStepConfig narrowSafeRect false sampleMeasure).placements = [] ∧
    (autoLayout singleCharTokens threeStepConfig narrowSafeRect false sampleMeasure).columnHeights = [] ∧
    (autoLayout singleCharTokens threeStepConfig narrowSafeRect false sampleMeasure).fontSize = threeStepConfig.minFontSize ∧
    (autoLayout singleCharTokens threeStepConfig narrowSafeRect false sampleMeasure).columns = 1 :=
  ⟨by with_unfolding_all decide,
    autoLayout_failure_shape singleCharTokens threeStepConfig narrowSafeRect false sampleMeasure
      (by with_unfolding_all decide)⟩

/-! ### Warning accumulation (claims C4, C5) -/


theorem packLines_warnings_length (safeRect : Rect) (columns : ℕ) (columnWidth columnGap : ℚ) :
    ∀ (lines : List LineBuffer) (placements : List Placement) (columnHeights : List ℚ)
      (columnIndex : ℕ) (cursorY : ℚ),
      (packLines safeRect columns columnWidth columnGap lines placements columnHeights
        columnIndex cursorY).warnings.length ≤ 1 := by
  intro lines
  induction lines with
  | nil => intro p ch ci cy; simp [packLines]
  | cons line rest ih =>
    intro p ch ci cy
    unfold packLines
    by_cases h1 : cy + line.height > safeRect.height + 1 / 2
    · rw [if_pos h1]
      by_cases h2 : ci + 1 ≥ columns
      · rw [if_pos h2]; simp
      · rw [if_neg h2]; exact ih _ _ _ _
    · rw [if_neg h1]; exact ih _ _ _ _

/-- C4 (amended): each single layout attempt records at most one warning,
hence duplicate-free warnings within an attempt; across retried attempts
the accumulated warning list of the returned result can repeat entries. -/
theorem layoutWithConfig_warnings_nodup (tokens : List LayoutToken) (safeRect : Rect)
    (fontSize : ℚ) (columns : ℕ) (config : LayoutConfig) (measure : Char → TextMetricsQ) :
    (layoutWithConfig tokens safeRect fontSize columns config measure).warnings.length ≤ 1 ∧
    (layoutWithConfig tokens safeRect fontSize columns config measure).warnings.Nodup := by
  have hlen : (layoutWithConfig tokens safeRect fontSize columns config measure).warnings.length ≤ 1 := by
    unfold layoutWithConfig
    by_cases h : columnWidthFor safeRect config columns ≤ 20
    · rw [if_pos h]; simp
    · rw [if_neg h]; exact packLines_warnings_length _ _ _ _ _ _ _ _ _
  refine ⟨hlen, ?_⟩
  cases hw : (layoutWithConfig tokens safeRect fontSize columns config measure).warnings with
  | nil => exact List.nodup_nil
  | cons a l =>
    rw [hw] at hlen
    simp at hlen
    rw [hlen]
    exact List.nodup_singleton a

/-- C4 counterexample: at a 15px-wide safe rectangle with font sizes 36,
34, 32, the returned warnings repeat the narrow-column message three
times, so the result's warning list has duplicates. -/
theorem autoLayout_warnings_duplicate :
    (autoLayout singleCharTokens threeStepConfig narrowSafeRect false sampleMeasure).warnings =
      [narrowColumnMsg, narrowColumnMsg, narrowColumnMsg] ∧
    ¬ (autoLayout singleCharTokens threeStepConfig narrowSafeRect false
        sampleMeasure).warnings.Nodup := by
  with_unfolding_all decide

theorem fontSearchGo_all_narrow (tokens : List LayoutToken) (safeRect : Rect)
    (config : LayoutConfig) (columns : ℕ) (measure : MeasureProvider)
    (h : columnWidthFor safeRect config columns ≤ 20) :
    ∀ (cands : List ℚ) (warnings : List String),
      fontSearchGo tokens safeRect config columns measure cands warnings =
        { success := false
          placements := []
          fontSize := config.minFontSize
          warnings := warnings ++ List.replicate cands.length narrowColumnMsg
          columnHeights := [] } := by
  intro cands
  induction cands with
  | nil => intro w; simp [fontSearchGo]
  | cons fs rest ih =>
    intro w
    unfold fontSearchGo
    simp only []
    unfold layoutWithConfig
    rw [if_pos h]
    rw [ih (w ++ [narrowColumnMsg])]
    simp [List.replicate_succ]

/-- C5 (amended): a column count whose column width is at most 20px makes
every attempt at that count fail immediately with the distinct
narrow-column warning, independently of the measurement provider — but the
font-size loop still retries that count at every candidate size, repeating
the identical failure once per size. -/
theorem narrow_column_behaviour (tokens : List LayoutToken) (safeRect : Rect)
    (config : LayoutConfig) (columns : ℕ) (measure : MeasureProvider)
    (h : columnWidthFor safeRect config columns ≤ 20) :
    (∀ (fs : ℚ) (m : Char → TextMetricsQ),
      layoutWithConfig tokens safeRect fs columns config m =
        { success := false
          placements := []
          overflow := true
          warnings := [narrowColumnMsg]
          columnHeights := List.replicate columns 0 }) ∧
    (findFontSizeForColumns tokens safeRect config columns measure).warnings =
      List.replicate (fontSizeCandidates config.fontSize config.minFontSize).length
        narrowColumnMsg := by
  constructor
  · intro fs m
    unfold layoutWithConfig
    rw [if_pos h]
  · unfold findFontSizeForColumns
    rw [fontSearchGo_all_narrow tokens safeRect config columns measure h]
    simp

/-- Witness for the amended C5 at the concrete 15px-wide safe rectangle. -/
theorem narrow_column_behaviour_witness :
    columnWidthFor narrowSafeRect threeStepConfig 1 ≤ 20 ∧
    layoutWithConfig singleCharTokens narrowSafeRect 36 1 threeStepConfig (sampleMeasure 36) =
      { success := false
        placements := []
        overflow := true
        warnings := [narrowColumnMsg]
        columnHeights := List.replicate 1 0 } ∧
    (findFontSizeForColumns singleCharTokens narrowSafeRect threeStepConfig 1
        sampleMeasure).warnings =
      List.replicate (fontSizeCandidates threeStepConfig.fontSize
        threeStepConfig.minFontSize).length narrowColumnMsg :=
  ⟨by with_unfolding_all decide,
    (narrow_column_behaviour singleCharTokens narrowSafeRect threeStepConfig 1 sampleMeasure
      (by with_unfolding_all decide)).1 36 (sampleMeasure 36),
    (narrow_column_behaviour singleCharTokens narrowSafeRect threeStepConfig 1 sampleMeasure
      (by with_unfolding_all decide)).2⟩

/-- C5 counterexample: with column width 15px ≤ 20px and three candidate
font sizes, the narrow column count is attempted three times (one
identical warning per font size), not once. -/
theorem narrow_column_retried :
    (findFontSizeForColumns singleCharTokens narrowSafeRect threeStepConfig 1
      sampleMeasure).warnings = [narrowColumnMsg, narrowColumnMsg, narrowColumnMsg] := by
  with_unfolding_all decide

/-! ### Line metrics (claim C6) -/


theorem pushCharRun_height_eq (base : ℚ) (line : LineBuffer) (ch : Char) (w a d : ℚ)
    (h : line.height = max base (line.ascent + line.descent) ∨ line.height = base) :
    (pushCharRun line ch w a d).height =
      max base ((pushCharRun line ch w a d).ascent + (pushCharRun line ch w a d).descent) := by
  unfold pushCharRun
  simp only []
  have hle : line.ascent + line.descent ≤ max line.ascent a + max line.descent d :=
    add_le_add (le_max_left _ _) (le_max_left _ _)
  cases h with
  | inl h1 =>
    rw [h1, max_assoc]
    congr 1
    exact max_eq_right hle
  | inr h2 =>
    rw [h2]

theorem foldl_pushCharRun_height (base : ℚ) :
    ∀ (entries : List (Char × ℚ × ℚ × ℚ)) (line : LineBuffer),
      line.height = max base (line.ascent + line.descent) →
      (entries.foldl (fun l e => pushCharRun l e.1 e.2.1 e.2.2.1 e.2.2.2) line).height =
        max base
          ((entries.foldl (fun l e => pushCharRun l e.1 e.2.1 e.2.2.1 e.2.2.2) line).ascent +
           (entries.foldl (fun l e => pushCharRun l e.1 e.2.1 e.2.2.1 e.2.2.2) line).descent) := by
  intro entries
  induction entries with
  | nil => intro line h; exact h
  | cons e rest ih =>
    intro line h
    simp only [List.foldl_cons]
    exact ih _ (pushCharRun_height_eq base line e.1 e.2.1 e.2.2.1 e.2.2.2 (Or.inl h))

/-- C6 (amended): a measured run with no supplied ascent/descent defaults
to ascent `fontSize × 0.82` and descent `fontSize × 0.18` (not 0.8/0.2); a
fresh line buffer starts at ascent `fontSize × 0.8`, descent
`fontSize × 0.2` and height `fontSize × lineHeightRatio`; pushing a run
maximises the line's ascent/descent with the run's, recomputes
`height = max(height, ascent + descent)` monotonically (likewise for
asset runs), and once at least one run is pushed the line height equals
`max(fontSize × lineHeightRatio, ascent + descent)`. -/
theorem line_metric_rules (fs ratioQ : ℚ) :
    (∀ m : TextMetricsQ, m.actualBoundingBoxAscent = none → m.fontBoundingBoxAscent = none →
      runAscent m fs = fs * (82 / 100)) ∧
    (∀ m : TextMetricsQ, m.actualBoundingBoxDescent = none → m.fontBoundingBoxDescent = none →
      runDescent m fs = fs * (18 / 100)) ∧
    (createLineBuffer fs ratioQ).ascent = fs * (8 / 10) ∧
    (createLineBuffer fs ratioQ).descent = fs * (2 / 10) ∧
    (createLineBuffer fs ratioQ).height = fs * ratioQ ∧
    (∀ (line : LineBuffer) (ch : Char) (w a d : ℚ),
      (pushCharRun line ch w a d).ascent = max line.ascent a ∧
      (pushCharRun line ch w a d).descent = max line.descent d ∧
      (pushCharRun line ch w a d).height =
        max line.height (max line.ascent a + max line.descent d) ∧
      line.height ≤ (pushCharRun line ch w a d).height) ∧
    (∀ (line : LineBuffer) (asset : InlineAsset) (w hgt : ℚ),
      line.height ≤ (pushAssetRun line asset w hgt).height) ∧
    (∀ entries : List (Char × ℚ × ℚ × ℚ), entries ≠ [] →
      (entries.foldl (fun l e => pushCharRun l e.1 e.2.1 e.2.2.1 e.2.2.2)
          (createLineBuffer fs ratioQ)).height =
        max (fs * ratioQ)
          ((entries.foldl (fun l e => pushCharRun l e.1 e.2.1 e.2.2.1 e.2.2.2)
              (createLineBuffer fs ratioQ)).ascent +
           (entries.foldl (fun l e => pushCharRun l e.1 e.2.1 e.2.2.1 e.2.2.2)
              (createLineBuffer fs ratioQ)).descent)) := by
  refine ⟨?_, ?_, rfl, rfl, rfl, ?_, ?_, ?_⟩
  · intro m h1 h2
    unfold runAscent jsOrQ
    rw [h1, h2]
  · intro m h1 h2
    unfold runDescent jsOrQ
    rw [h1, h2]
  · intro line ch w a d
    refine ⟨rfl, rfl, rfl, ?_⟩
    unfold pushCharRun
    exact le_max_left _ _
  · intro line asset w hgt
    unfold pushAssetRun
    simp only []
    exact le_trans (le_max_left _ _) (le_max_left _ _)
  · intro entries hne
    cases entries with
    | nil => exact absurd rfl hne
    | cons e rest =>
      simp only [List.foldl_cons]
      refine foldl_pushCharRun_height (fs * ratioQ) rest _ ?_
      refine pushCharRun_height_eq (fs * ratioQ) _ e.1 e.2.1 e.2.2.1 e.2.2.2 (Or.inr rfl)

/-- Witness for the amended C6 at font size 100, ratio 1, the metric-free
provider and a single pushed character run. -/
theorem line_metric_rules_witness :
    sampleMetrics.actualBoundingBoxAscent = none ∧
    runAscent sampleMetrics 100 = 100 * (82 / 100) ∧
    runDescent sampleMetrics 100 = 100 * (18 / 100) ∧
    (([('a', (10 : ℚ), 82, 18)] : List (Char × ℚ × ℚ × ℚ)) ≠ []) ∧
    (([('a', (10 : ℚ), 82, 18)] : List (Char × ℚ × ℚ × ℚ)).foldl
        (fun l e => pushCharRun l e.1 e.2.1 e.2.2.1 e.2.2.2)
        (createLineBuffer 100 1)).height =
      max ((100 : ℚ) * 1)
        ((([('a', (10 : ℚ), 82, 18)] : List (Char × ℚ × ℚ × ℚ)).foldl
            (fun l e => pushCharRun l e.1 e.2.1 e.2.2.1 e.2.2.2)
            (createLineBuffer 100 1)).ascent +
         (([('a', (10 : ℚ), 82, 18)] : List (Char × ℚ × ℚ × ℚ)).foldl
            (fun l e => pushCharRun l e.1 e.2.1 e.2.2.1 e.2.2.2)
            (createLineBuffer 100 1)).descent) :=
  ⟨rfl, (line_metric_rules 100 1).1 sampleMetrics rfl rfl,
    (line_metric_rules 100 1).2.1 sampleMetrics rfl rfl,
    by decide,
    (line_metric_rules 100 1).2.2.2.2.2.2.2 [('a', (10 : ℚ), 82, 18)] (by decide)⟩

/-- C6 counterexample: at font size 100 a run whose measurement supplies
no ascent or descent gets ascent 82 and descent 18, and 82 is not
`100 × 0.8`. -/
theorem run_default_not_point_eight :
    (pushTextSegment ['a'] (createLineBuffer 100 1) 1000 (sampleMeasure 100) 100 1
      []).2.runs.map RunBuffer.ascent = [82] ∧
    (pushTextSegment ['a'] (createLineBuffer 100 1) 1000 (sampleMeasure 100) 100 1
      []).2.runs.map RunBuffer.descent = [18] ∧
    ¬ ((82 : ℚ) = 100 * (8 / 10)) := by
  with_unfolding_all decide

/-! ### Safe-rectangle geometry (claim C7) -/


theorem selectLargest_cons (best r : Rect) (rest : List Rect) :
    selectLargest best (r :: rest) =
      selectLargest (if rectArea best < rectArea r then r else best) rest := rfl

theorem selectLargest_spec :
    ∀ (rest : List Rect) (best : Rect),
      (selectLargest best rest = best ∧ ∀ r ∈ rest, rectArea r ≤ rectArea best) ∨
      (∃ pre post, rest = pre ++ selectLargest best rest :: post ∧
        rectArea best < rectArea (selectLargest best rest) ∧
        (∀ r ∈ pre, rectArea r < rectArea (selectLargest best rest)) ∧
        (∀ r ∈ post, rectArea r ≤ rectArea (selectLargest best rest))) := by
  intro rest
  induction rest with
  | nil => intro best; exact Or.inl ⟨rfl, by simp⟩
  | cons r rest' ih =>
    intro best
    by_cases hlt : rectArea best < rectArea r
    · rw [selectLargest_cons, if_pos hlt]
      cases ih r with
      | inl h =>
        obtain ⟨heq, hall⟩ := h
        rw [heq]
        exact Or.inr ⟨[], rest', by simp, hlt, by simp, hall⟩
      | inr h =>
        obtain ⟨pre, post, hdec, hlt2, hpre, hpost⟩ := h
        refine Or.inr ⟨r :: pre, post, ?_, lt_trans hlt hlt2, ?_, hpost⟩
        · rw [List.cons_append, ← hdec]
        · intro x hx
          rcases List.mem_cons.mp hx with hx | hx
          · rw [hx]; exact hlt2
          · exact hpre x hx
    · rw [selectLargest_cons, if_neg hlt]
      cases ih best with
      | inl h =>
        obtain ⟨heq, hall⟩ := h
        refine Or.inl ⟨heq, ?_⟩
        intro x hx
        rcases List.mem_cons.mp hx with hx | hx
        · rw [hx]; exact le_of_not_lt hlt
        · exact hall x hx
      | inr h =>
        obtain ⟨pre, post, hdec, hlt2, hpre, hpost⟩ := h
        refine Or.inr ⟨r :: pre, post, ?_, hlt2, ?_, hpost⟩
        · rw [List.cons_append, ← hdec]
        · intro x hx
          rcases List.mem_cons.mp hx with hx | hx
          · rw [hx]; exact lt_of_le_of_lt (le_of_not_lt hlt) hlt2
          · exact hpre x hx

/-- C7: without a character rectangle `computeSafeRect` returns the outer
rectangle (canvas inset by `outerPadding`, dimensions at least 10px); with
one, it keeps the left/top/right candidates exceeding 20px in both
dimensions and returns the earliest candidate of strictly maximum area
(area is the sole tie-break), falling back to the outer rectangle when no
candidate survives. -/
theorem computeSafeRect_spec (canvasWidth canvasHeight outerPadding safePadding : ℚ) :
    computeSafeRect canvasWidth canvasHeight none outerPadding safePadding =
      outerRectFor canvasWidth canvasHeight outerPadding ∧
    10 ≤ (outerRectFor canvasWidth canvasHeight outerPadding).width ∧
    10 ≤ (outerRectFor canvasWidth canvasHeight outerPadding).height ∧
    ∀ cr : Rect,
      (safeCandidates canvasWidth canvasHeight cr outerPadding safePadding = [] →
        computeSafeRect canvasWidth canvasHeight (some cr) outerPadding safePadding =
          outerRectFor canvasWidth canvasHeight outerPadding) ∧
      (safeCandidates canvasWidth canvasHeight cr outerPadding safePadding ≠ [] →
        computeSafeRect canvasWidth canvasHeight (some cr) outerPadding safePadding ∈
          safeCandidates canvasWidth canvasHeight cr outerPadding safePadding ∧
        (∀ r ∈ safeCandidates canvasWidth canvasHeight cr outerPadding safePadding,
          rectArea r ≤ rectArea
            (computeSafeRect canvasWidth canvasHeight (some cr) outerPadding safePadding)) ∧
        ∃ pre post,
          safeCandidates canvasWidth canvasHeight cr outerPadding safePadding =
            pre ++ computeSafeRect canvasWidth canvasHeight (some cr) outerPadding
              safePadding :: post ∧
          ∀ r ∈ pre, rectArea r < rectArea
            (computeSafeRect canvasWidth canvasHeight (some cr) outerPadding safePadding)) := by
  refine ⟨rfl, le_max_right _ _, le_max_right _ _, ?_⟩
  intro cr
  constructor
  · intro hc
    unfold computeSafeRect
    simp only []
    rw [hc]
  · intro hc
    cases hcand : safeCandidates canvasWidth canvasHeight cr outerPadding safePadding with
    | nil => exact absurd hcand hc
    | cons best rest =>
      have hres : computeSafeRect canvasWidth canvasHeight (some cr) outerPadding safePadding =
          selectLargest best rest := by
        unfold computeSafeRect
        simp only []
        rw [hcand]
      rw [hres]
      cases selectLargest_spec rest best with
      | inl h =>
        obtain ⟨heq, hall⟩ := h
        rw [heq]
        refine ⟨List.mem_cons_self best rest, ?_, [], rest, by simp, by simp⟩
        intro r hr
        rcases List.mem_cons.mp hr with hr | hr
        · rw [hr]
        · exact hall r hr
      | inr h =>
        obtain ⟨pre, post, hdec, hlt2, hpre, hpost⟩ := h
        have hx : selectLargest best rest ∈ pre ++ selectLargest best rest :: post := by simp
        rw [← hdec] at hx
        have hmem : selectLargest best rest ∈ best :: rest := List.mem_cons_of_mem best hx
        refine ⟨hmem, ?_, best :: pre, post, by rw [List.cons_append, ← hdec], ?_⟩
        · intro r hr
          rcases List.mem_cons.mp hr with hr | hr
          · rw [hr]; exact le_of_lt hlt2
          · rw [hdec] at hr
            rcases List.mem_append.mp hr with hr | hr
            · exact le_of_lt (hpre r hr)
            · rcases List.mem_cons.mp hr with hr | hr
              · rw [hr]
              · exact hpost r hr
        · intro r hr
          rcases List.mem_cons.mp hr with hr | hr
          · rw [hr]; exact hlt2
          · exact hpre r hr

/-- Witness for C7 at a concrete canvas: candidates survive on the left and
top of the character cutout, and the larger left rectangle wins. -/
theorem computeSafeRect_spec_witness :
    safeCandidates 1000 1000 sampleCharacterRect 72 40 ≠ [] ∧
    computeSafeRect 1000 1000 (some sampleCharacterRect) 72 40 ∈
      safeCandidates 1000 1000 sampleCharacterRect 72 40 ∧
    (∀ r ∈ safeCandidates 1000 1000 sampleCharacterRect 72 40,
      rectArea r ≤ rectArea (computeSafeRect 1000 1000 (some sampleCharacterRect) 72 40)) ∧
    computeSafeRect 1000 1000 none 72 40 = outerRectFor 1000 1000 72 :=
  ⟨by with_unfolding_all decide,
    (((computeSafeRect_spec 1000 1000 72 40).2.2.2 sampleCharacterRect).2
      (by with_unfolding_all decide)).1,
    (((computeSafeRect_spec 1000 1000 72 40).2.2.2 sampleCharacterRect).2
      (by with_unfolding_all decide)).2.1,
    (computeSafeRect_spec 1000 1000 72 40).1⟩

/-! ### Text-offset post-processing (claim C8) -/


/-- C8: a non-zero offset that pushes the recomputed placement bounding box
outside the safe rectangle appends the boundary warning exactly once
(detection runs once per call); an equal warning already present is never
duplicated, so post-processing again with the same offset leaves a single
copy. -/
theorem applyTextOffset_warning_once (layout : LayoutResult) (offsetX offsetY : ℚ)
    (safeRect : Rect)
    (hs : layout.success = true)
    (hnz : ¬ (offsetX = 0 ∧ offsetY = 0))
    (hv : offsetViolation layout.placements offsetX offsetY safeRect = true)
    (hnotin : offsetWarningMsg ∉ layout.warnings) :
    (applyTextOffset layout offsetX offsetY safeRect).warnings =
      layout.warnings ++ [offsetWarningMsg] ∧
    (applyTextOffset layout offsetX offsetY safeRect).warnings.count offsetWarningMsg = 1 ∧
    ((applyTextOffset (applyTextOffset layout offsetX offsetY safeRect) offsetX offsetY
        safeRect).warnings.count offsetWarningMsg) = 1 := by
  have h1 : applyTextOffset layout offsetX offsetY safeRect =
      { layout with
        placements := layout.placements.map (shiftPlacement · offsetX offsetY)
        warnings := layout.warnings ++ [offsetWarningMsg] } := by
    unfold applyTextOffset
    rw [if_neg (by rw [hs]; simp), if_neg hnz, if_pos ⟨hv, hnotin⟩]
  have hcount0 : layout.warnings.count offsetWarningMsg = 0 :=
    List.count_eq_zero.mpr hnotin
  have hcount1 : (applyTextOffset layout offsetX offsetY safeRect).warnings.count
      offsetWarningMsg = 1 := by
    rw [h1]
    simp [List.count_append, hcount0]
  refine ⟨by rw [h1], hcount1, ?_⟩
  have h2 : (applyTextOffset (applyTextOffset layout offsetX offsetY safeRect) offsetX offsetY
      safeRect).warnings = (applyTextOffset layout offsetX offsetY safeRect).warnings := by
    rw [h1]
    conv_lhs => unfold applyTextOffset
    rw [if_neg (by simp [hs]), if_neg hnz]
    simp only []
    rw [if_neg (by intro hcon; exact hcon.2 (by simp))]
  rw [h2]
  exact hcount1

/-- Witness for C8: a 30px-wide placement at x = 10 shifted 500px to the
right leaves the safe rectangle and produces exactly one warning, also
after a second application. -/
theorem applyTextOffset_warning_once_witness :
    sampleLayout.success = true ∧
    ¬ ((500 : ℚ) = 0 ∧ (0 : ℚ) = 0) ∧
    offsetViolation sampleLayout.placements 500 0 roomySafeRect = true ∧
    offsetWarningMsg ∉ sampleLayout.warnings ∧
    (applyTextOffset sampleLayout 500 0 roomySafeRect).warnings =
      sampleLayout.warnings ++ [offsetWarningMsg] ∧
    (applyTextOffset (applyTextOffset sampleLayout 500 0 roomySafeRect) 500 0
      roomySafeRect).warnings.count offsetWarningMsg = 1 :=
  ⟨rfl, by with_unfolding_all decide, by with_unfolding_all decide, by decide,
    (applyTextOffset_warning_once sampleLayout 500 0 roomySafeRect rfl
      (by with_unfolding_all decide) (by with_unfolding_all decide) (by decide)).1,
    (applyTextOffset_warning_once sampleLayout 500 0 roomySafeRect rfl
      (by with_unfolding_all decide) (by with_unfolding_all decide) (by decide)).2.2⟩

/-! ### Column-height bound (claim C2) and search characterization -/


theorem placeLine_snd (safeRect : Rect) (columnWidth columnGap : ℚ) (line : LineBuffer)
    (columnIndex : ℕ) (cursorY : ℚ) :
    (placeLine safeRect columnWidth columnGap line columnIndex cursorY).2 =
      cursorY + line.height := rfl

theorem packLines_heights_le (safeRect : Rect) (columns : ℕ) (columnWidth columnGap : ℚ) :
    ∀ (lines : List LineBuffer) (placements : List Placement) (heights : List ℚ)
      (ci : ℕ) (cy : ℚ),
      (∀ l ∈ lines, l.height ≤ safeRect.height + 1 / 2) →
      (∀ h ∈ heights, h ≤ safeRect.height + 1 / 2) →
      cy ≤ safeRect.height + 1 / 2 →
      (packLines safeRect columns columnWidth columnGap lines placements heights ci
        cy).success = true →
      ∀ h ∈ (packLines safeRect columns columnWidth columnGap lines placements heights ci
        cy).columnHeights, h ≤ safeRect.height + 1 / 2 := by
  intro lines
  induction lines with
  | nil =>
    intro p heights ci cy _ hh hcy _
    unfold packLines
    intro h hmem
    simp only [] at hmem
    rcases List.mem_or_eq_of_mem_set hmem with hmem | hmem
    · exact hh h hmem
    · rw [hmem]; exact hcy
  | cons line rest ih =>
    intro p heights ci cy hl hh hcy hsucc
    have hline := hl line (List.mem_cons_self line rest)
    have hrest : ∀ l ∈ rest, l.height ≤ safeRect.height + 1 / 2 :=
      fun l hm => hl l (List.mem_cons_of_mem line hm)
    unfold packLines at hsucc ⊢
    by_cases h1 : cy + line.height > safeRect.height + 1 / 2
    · rw [if_pos h1] at hsucc ⊢
      have hh' : ∀ h ∈ heights.set ci cy, h ≤ safeRect.height + 1 / 2 := by
        intro h hmem
        rcases List.mem_or_eq_of_mem_set hmem with hmem | hmem
        · exact hh h hmem
        · rw [hmem]; exact hcy
      by_cases h2 : ci + 1 ≥ columns
      · rw [if_pos h2] at hsucc
        simp at hsucc
      · rw [if_neg h2] at hsucc ⊢
        refine ih _ _ _ _ hrest hh' ?_ hsucc
        rw [placeLine_snd, zero_add]
        exact hline
    · rw [if_neg h1] at hsucc ⊢
      refine ih _ _ _ _ hrest hh ?_ hsucc
      rw [placeLine_snd]
      exact le_of_not_lt h1

theorem fontSearchGo_success_spec (tokens : List LayoutToken) (safeRect : Rect)
    (config : LayoutConfig) (columns : ℕ) (measure : MeasureProvider) :
    ∀ (cands : List ℚ) (w : List String) (r : FontSearchResult),
      fontSearchGo tokens safeRect config columns measure cands w = r →
      r.success = true →
      ∃ pre post, cands = pre ++ r.fontSize :: post ∧
        (layoutWithConfig tokens safeRect r.fontSize columns config
          (measure r.fontSize)).success = true ∧
        r.columnHeights = (layoutWithConfig tokens safeRect r.fontSize columns config
          (measure r.fontSize)).columnHeights ∧
        r.placements = (layoutWithConfig tokens safeRect r.fontSize columns config
          (measure r.fontSize)).placements ∧
        ∀ fs ∈ pre, (layoutWithConfig tokens safeRect fs columns config
          (measure fs)).success = false := by
  intro cands
  induction cands with
  | nil =>
    intro w r hr hs
    rw [← hr] at hs
    simp [fontSearchGo] at hs
  | cons fs rest ih =>
    intro w r hr hs
    unfold fontSearchGo at hr
    simp only [] at hr
    by_cases hatt : (layoutWithConfig tokens safeRect fs columns config (measure fs)).success = true
    · rw [if_pos hatt] at hr
      subst hr
      exact ⟨[], rest, rfl, hatt, rfl, rfl, by simp⟩
    · rw [if_neg hatt] at hr
      obtain ⟨pre, post, hdec, hfeas, hch, hpl, hpre⟩ := ih _ r hr hs
      refine ⟨fs :: pre, post, by rw [List.cons_append, hdec], hfeas, hch, hpl, ?_⟩
      intro x hx
      rcases List.mem_cons.mp hx with hx | hx
      · rw [hx]; exact Bool.eq_false_iff.mpr hatt
      · exact hpre x hx

theorem fontSearchGo_failure_spec (tokens : List LayoutToken) (safeRect : Rect)
    (config : LayoutConfig) (columns : ℕ) (measure : MeasureProvider) :
    ∀ (cands : List ℚ) (w : List String),
      (fontSearchGo tokens safeRect config columns measure cands w).success = false →
      ∀ fs ∈ cands, (layoutWithConfig tokens safeRect fs columns config
        (measure fs)).success = false := by
  intro cands
  induction cands with
  | nil => intro w _ fs hfs; exact absurd hfs (by simp)
  | cons fs rest ih =>
    intro w hfail x hx
    unfold fontSearchGo at hfail
    simp only [] at hfail
    by_cases hatt : (layoutWithConfig tokens safeRect fs columns config (measure fs)).success = true
    · rw [if_pos hatt] at hfail
      simp at hfail
    · rw [if_neg hatt] at hfail
      rcases List.mem_cons.mp hx with hx | hx
      · rw [hx]; exact Bool.eq_false_iff.mpr hatt
      · exact ih _ hfail x hx

theorem columnSearchGo_success_spec (tokens : List LayoutToken) (config : LayoutConfig)
    (safeRect : Rect) (measure : MeasureProvider) :
    ∀ (cands : List ℕ) (w : List String) (r : LayoutResult),
      columnSearchGo tokens config safeRect measure cands w = r →
      r.success = true →
      ∃ pre post, cands = pre ++ r.columns :: post ∧
        (findFontSizeForColumns tokens safeRect config r.columns measure).success = true ∧
        r.fontSize = (findFontSizeForColumns tokens safeRect config r.columns measure).fontSize ∧
        r.columnHeights =
          (findFontSizeForColumns tokens safeRect config r.columns measure).columnHeights ∧
        r.placements =
          (findFontSizeForColumns tokens safeRect config r.columns measure).placements ∧
        ∀ c ∈ pre, (findFontSizeForColumns tokens safeRect config c measure).success = false := by
  intro cands
  induction cands with
  | nil =>
    intro w r hr hs
    rw [← hr] at hs
    simp [columnSearchGo] at hs
  | cons cols rest ih =>
    intro w r hr hs
    unfold columnSearchGo at hr
    simp only [] at hr
    by_cases hatt : (findFontSizeForColumns tokens safeRect config cols measure).success = true
    · rw [if_pos hatt] at hr
      subst hr
      exact ⟨[], rest, rfl, hatt, rfl, rfl, rfl, by simp⟩
    · rw [if_neg hatt] at hr
      obtain ⟨pre, post, hdec, hfeas, hfs, hch, hpl, hpre⟩ := ih _ r hr hs
      refine ⟨cols :: pre, post, by rw [List.cons_append, hdec], hfeas, hfs, hch, hpl, ?_⟩
      intro x hx
      rcases List.mem_cons.mp hx with hx | hx
      · rw [hx]; exact Bool.eq_false_iff.mpr hatt
      · exact hpre x hx

/-- C2 (amended): for a successful layout, every entry of `columnHeights`
stays within `safeRect.height + 0.5` provided every line built at the
candidate combinations fits that bound by itself; a single line taller
than the bound placed into a freshly opened column escapes it. -/
theorem columnHeights_bounded (tokens : List LayoutToken) (config : LayoutConfig)
    (safeRect : Rect) (autoColumns : Bool) (measure : MeasureProvider) (r : LayoutResult)
    (hr : autoLayout tokens config safeRect autoColumns measure = r)
    (hs : r.success = true)
    (hlines : ∀ cols ∈ columnCandidatesFor config autoColumns,
      ∀ fs ∈ fontSizeCandidates config.fontSize config.minFontSize,
      ∀ line ∈ buildLines tokens (columnWidthFor safeRect config cols) (measure fs) fs
        config.lineHeight,
        line.height ≤ safeRect.height + 1 / 2) :
    ∀ h ∈ r.columnHeights, h ≤ safeRect.height + 1 / 2 := by
  unfold autoLayout at hr
  by_cases hd : safeRect.width ≤ 0 ∨ safeRect.height ≤ 0
  · rw [if_pos hd] at hr
    rw [← hr] at hs
    simp at hs
  · rw [if_neg hd] at hr
    have hpos : (0 : ℚ) ≤ safeRect.height + 1 / 2 := by
      push_neg at hd
      linarith [hd.2]
    obtain ⟨pre, post, hdec, hfeas, hfsz, hch, hpl, hpre⟩ :=
      columnSearchGo_success_spec tokens config safeRect measure _ [] r hr hs
    have hcolsmem : r.columns ∈ columnCandidatesFor config autoColumns := by
      rw [hdec]
      exact List.mem_append_right pre (List.mem_cons_self _ _)
    obtain ⟨pre2, post2, hdec2, hfeas2, hch2, hpl2, hpre2⟩ :=
      fontSearchGo_success_spec tokens safeRect config r.columns measure
        (fontSizeCandidates config.fontSize config.minFontSize) []
        (findFontSizeForColumns tokens safeRect config r.columns measure) rfl hfeas
    have hfsmem : (findFontSizeForColumns tokens safeRect config r.columns measure).fontSize ∈
        fontSizeCandidates config.fontSize config.minFontSize := by
      rw [hdec2]
      exact List.mem_append_right pre2 (List.mem_cons_self _ _)
    unfold layoutWithConfig at hfeas2 hch2
    simp only [] at hfeas2 hch2
    by_cases hnarrow : columnWidthFor safeRect config r.columns ≤ 20
    · rw [if_pos hnarrow] at hfeas2
      simp at hfeas2
    · rw [if_neg hnarrow] at hfeas2 hch2
      intro h hm
      rw [hch, hch2] at hm
      refine packLines_heights_le safeRect r.columns
        (columnWidthFor safeRect config r.columns) config.columnGap _ _ _ _ _
        (hlines r.columns hcolsmem _ hfsmem) ?_ hpos hfeas2 h hm
      intro x hx
      rw [List.eq_of_mem_replicate hx]
      exact hpos

/-- C2 counterexample: a 64px line (font 32, ratio 2) in a 10px-high safe
rectangle with two columns succeeds, yet the second column's recorded
height 64 exceeds `safeRect.height + 0.5 = 10.5`. -/
theorem columnHeights_exceed_bound :
    (autoLayout singleCharTokens tallLineConfig shortSafeRect true sampleMeasure).success =
      true ∧
    (autoLayout singleCharTokens tallLineConfig shortSafeRect true
      sampleMeasure).columnHeights = [0, 64] ∧
    ¬ ((64 : ℚ) ≤ shortSafeRect.height + 1 / 2) := by
  with_unfolding_all decide

/-- Witness for the amended C2: a successful two-character layout in a
roomy safe rectangle where every candidate line fits the bound. -/
theorem columnHeights_bounded_witness :
    (autoLayout twoCharTokens sampleConfig roomySafeRect true sampleMeasure).success = true ∧
    (∀ cols ∈ columnCandidatesFor sampleConfig true,
      ∀ fs ∈ fontSizeCandidates sampleConfig.fontSize sampleConfig.minFontSize,
      ∀ line ∈ buildLines twoCharTokens (columnWidthFor roomySafeRect sampleConfig cols)
        (sampleMeasure fs) fs sampleConfig.lineHeight,
        line.height ≤ roomySafeRect.height + 1 / 2) ∧
    ∀ h ∈ (autoLayout twoCharTokens sampleConfig roomySafeRect true
      sampleMeasure).columnHeights, h ≤ roomySafeRect.height + 1 / 2 :=
  ⟨by with_unfolding_all decide, by with_unfolding_all decide,
    columnHeights_bounded twoCharTokens sampleConfig roomySafeRect true sampleMeasure _
      rfl (by with_unfolding_all decide) (by with_unfolding_all decide)⟩

/-! ### First-success search order (claim C1) -/


theorem fontSizeCandidates_mem (start minF fs : ℚ) :
    fs ∈ fontSizeCandidates start minF ↔
      (∃ k : ℕ, fs = start - 2 * k) ∧ minF ≤ fs := by
  unfold fontSizeCandidates
  by_cases hlt : start < minF
  · rw [if_pos hlt]
    simp only [List.not_mem_nil, false_iff]
    rintro ⟨⟨k, hk⟩, hge⟩
    have h2k : (0 : ℚ) ≤ 2 * k := by positivity
    have : fs ≤ start := by rw [hk]; linarith
    linarith
  · rw [if_neg hlt]
    push_neg at hlt
    have hnum : (0 : ℚ) ≤ (start - minF) / 2 := by linarith
    have hfl : (0 : ℤ) ≤ ⌊(start - minF) / 2⌋ := Int.floor_nonneg.mpr hnum
    constructor
    · intro hm
      obtain ⟨k, hkmem, hkeq⟩ := List.mem_map.mp hm
      rw [List.mem_range] at hkmem
      refine ⟨⟨k, hkeq.symm⟩, ?_⟩
      have hkle : k ≤ (⌊(start - minF) / 2⌋).toNat := Nat.lt_succ_iff.mp hkmem
      have hkle2 : (k : ℤ) ≤ ⌊(start - minF) / 2⌋ := by
        rwa [← Int.toNat_of_nonneg hfl, Int.ofNat_le]
      have hkle3 : (k : ℚ) ≤ (start - minF) / 2 := by
        calc (k : ℚ) = ((k : ℤ) : ℚ) := by push_cast; ring
        _ ≤ ⌊(start - minF) / 2⌋ := by exact_mod_cast hkle2
        _ ≤ (start - minF) / 2 := Int.floor_le _
      rw [← hkeq]
      linarith
    · rintro ⟨⟨k, hk⟩, hge⟩
      refine List.mem_map.mpr ⟨k, ?_, hk.symm⟩
      rw [List.mem_range, Nat.lt_succ_iff]
      have hk3 : (k : ℚ) ≤ (start - minF) / 2 := by
        rw [hk] at hge
        linarith
      have hk4 : (k : ℤ) ≤ ⌊(start - minF) / 2⌋ := by
        rw [Int.le_floor]
        exact_mod_cast hk3
      rwa [← Int.toNat_of_nonneg hfl, Int.ofNat_le] at hk4
  

theorem fontSizeCandidates_sorted (start minF : ℚ) :
    (fontSizeCandidates start minF).Pairwise (· > ·) := by
  unfold fontSizeCandidates
  by_cases hlt : start < minF
  · rw [if_pos hlt]; exact List.Pairwise.nil
  · rw [if_neg hlt]
    rw [List.pairwise_map]
    refine (List.pairwise_lt_range _).imp ?_
    intro a b hab
    have : (a : ℚ) < b := by exact_mod_cast hab
    simp only [gt_iff_lt]
    linarith

theorem columnCandidatesFor_sorted (config : LayoutConfig) (autoColumns : Bool) :
    (columnCandidatesFor config autoColumns).Pairwise (· < ·) := by
  unfold columnCandidatesFor
  by_cases ha : autoColumns = true
  · rw [if_pos ha]
    rw [List.pairwise_map]
    refine (List.pairwise_lt_range _).imp ?_
    intro a b hab
    omega
  · rw [if_neg ha]
    exact List.pairwise_singleton _ _

theorem mem_pre_of_rel {α : Type} {R : α → α → Prop} {pre post : List α} {x c : α}
    (hasymm : ∀ a b, R a b → ¬ R b a)
    (hp : (pre ++ x :: post).Pairwise R) (hc : c ∈ pre ++ x :: post) (hcx : R c x) :
    c ∈ pre := by
  rcases List.mem_append.mp hc with h | h
  · exact h
  · rcases List.mem_cons.mp h with h | h
    · subst h
      exact absurd hcx (fun hxx => hasymm c c hxx hxx)
    · have hpx : (x :: post).Pairwise R := (List.pairwise_append.mp hp).2.1
      have hxc : R x c := (List.pairwise_cons.mp hpx).1 c h
      exact absurd hcx (hasymm x c hxc)

/-- C1: a successful `autoLayout` result chose a font size of the form
`config.fontSize - 2k`, at least `config.minFontSize`; its column count is
one of the tried candidates (only 1 with multi-column disabled); the
chosen combination succeeds under `layoutWithConfig`; every smaller tried
column count fails at every candidate font size; and every larger tried
font size fails at the chosen column count — i.e. the search returns the
first success in (columns ascending, font size descending) order. -/
theorem autoLayout_first_success (tokens : List LayoutToken) (config : LayoutConfig)
    (safeRect : Rect) (autoColumns : Bool) (measure : MeasureProvider) (r : LayoutResult)
    (hr : autoLayout tokens config safeRect autoColumns measure = r)
    (hs : r.success = true) :
    (∃ k : ℕ, r.fontSize = config.fontSize - 2 * k) ∧
    config.minFontSize ≤ r.fontSize ∧
    r.columns ∈ columnCandidatesFor config autoColumns ∧
    (autoColumns = false → r.columns = 1) ∧
    (layoutWithConfig tokens safeRect r.fontSize r.columns config
      (measure r.fontSize)).success = true ∧
    (∀ c ∈ columnCandidatesFor config autoColumns, c < r.columns →
      ∀ fs ∈ fontSizeCandidates config.fontSize config.minFontSize,
        (layoutWithConfig tokens safeRect fs c config (measure fs)).success = false) ∧
    (∀ fs ∈ fontSizeCandidates config.fontSize config.minFontSize, r.fontSize < fs →
      (layoutWithConfig tokens safeRect fs r.columns config
        (measure fs)).success = false) := by
  unfold autoLayout at hr
  by_cases hd : safeRect.width ≤ 0 ∨ safeRect.height ≤ 0
  · rw [if_pos hd] at hr
    rw [← hr] at hs
    simp at hs
  · rw [if_neg hd] at hr
    obtain ⟨pre, post, hdec, hfeas, hfsz, hch, hpl, hpre⟩ :=
      columnSearchGo_success_spec tokens config safeRect measure _ [] r hr hs
    obtain ⟨pre2, post2, hdec2, hfeas2, hch2, hpl2, hpre2⟩ :=
      fontSearchGo_success_spec tokens safeRect config r.columns measure
        (fontSizeCandidates config.fontSize config.minFontSize) []
        (findFontSizeForColumns tokens safeRect config r.columns measure) rfl hfeas
    have hcolsmem : r.columns ∈ columnCandidatesFor config autoColumns := by
      rw [hdec]
      exact List.mem_append_right pre (List.mem_cons_self _ _)
    have hfsmem : r.fontSize ∈ fontSizeCandidates config.fontSize config.minFontSize := by
      rw [hfsz, hdec2]
      exact List.mem_append_right pre2 (List.mem_cons_self _ _)
    obtain ⟨⟨k, hk⟩, hminle⟩ :=
      (fontSizeCandidates_mem config.fontSize config.minFontSize r.fontSize).mp hfsmem
    refine ⟨⟨k, hk⟩, hminle, hcolsmem, ?_, ?_, ?_, ?_⟩
    · intro hfalse
      rw [hfalse] at hcolsmem
      unfold columnCandidatesFor at hcolsmem
      simp at hcolsmem
      exact hcolsmem
    · rw [hfsz]
      exact hfeas2
    · intro c hcmem hclt fs hfs
      have hsorted : (pre ++ r.columns :: post).Pairwise (· < ·) := by
        rw [← hdec]
        exact columnCandidatesFor_sorted config autoColumns
      have hcmem2 : c ∈ pre ++ r.columns :: post := by
        rw [← hdec]
        exact hcmem
      have hcpre : c ∈ pre :=
        mem_pre_of_rel (fun a b hab hba => Nat.lt_asymm hab hba) hsorted hcmem2 hclt
      have hcfail := hpre c hcpre
      exact fontSearchGo_failure_spec tokens safeRect config c measure
        (fontSizeCandidates config.fontSize config.minFontSize) [] hcfail fs hfs
    · intro fs hfs hlt
      have hsorted2 : (pre2 ++ (findFontSizeForColumns tokens safeRect config r.columns
          measure).fontSize :: post2).Pairwise (· > ·) := by
        rw [← hdec2]
        exact fontSizeCandidates_sorted config.fontSize config.minFontSize
      have hfsmem2 : fs ∈ pre2 ++ (findFontSizeForColumns tokens safeRect config r.columns
          measure).fontSize :: post2 := by
        rw [← hdec2]
        exact hfs
      have hgt : fs > (findFontSizeForColumns tokens safeRect config r.columns
          measure).fontSize := by
        rw [← hfsz]
        exact hlt
      have hfspre : fs ∈ pre2 :=
        mem_pre_of_rel (fun (a b : ℚ) hab hba => lt_asymm hab hba) hsorted2 hfsmem2 hgt
      exact hpre2 fs hfspre

/-- Witness for C1: the sample two-character layout succeeds at font size
40 (decrement 0) in one column. -/
theorem autoLayout_first_success_witness :
    (autoLayout twoCharTokens sampleConfig roomySafeRect true sampleMeasure).success = true ∧
    (∃ k : ℕ, (autoLayout twoCharTokens sampleConfig roomySafeRect true
      sampleMeasure).fontSize = sampleConfig.fontSize - 2 * k) ∧
    sampleConfig.minFontSize ≤
      (autoLayout twoCharTokens sampleConfig roomySafeRect true sampleMeasure).fontSize ∧
    (autoLayout twoCharTokens sampleConfig roomySafeRect true sampleMeasure).columns ∈
      columnCandidatesFor sampleConfig true ∧
    (layoutWithConfig twoCharTokens roomySafeRect
      (autoLayout twoCharTokens sampleConfig roomySafeRect true sampleMeasure).fontSize
      (autoLayout twoCharTokens sampleConfig roomySafeRect true sampleMeasure).columns
      sampleConfig
      (sampleMeasure (autoLayout twoCharTokens sampleConfig roomySafeRect true
        sampleMeasure).fontSize)).success = true := by
  have h := autoLayout_first_success twoCharTokens sampleConfig roomySafeRect true
    sampleMeasure _ rfl (by with_unfolding_all decide)
  exact ⟨by with_unfolding_all decide, h.1, h.2.1, h.2.2.1, h.2.2.2.2.1⟩

end GufengLayout
